import Mathlib

/-!
Verification development for `grabpackt.py`, a single-file workflow that
logs in to a publisher site, claims the daily free content item, and
optionally downloads and archives its deliverable files.

The embedding is shallow: each Python function becomes a Lean definition
over parsed page data.  HTML/XPath plumbing is modelled at the boundary the
code actually consumes: an XPath query result becomes a list of matched
elements (an element being its list of attribute values, or a `BookElem`
record for book-list children), and a `requests` response becomes its
status code plus the parsed structure of its body.  Python exceptions
(IndexError on empty query results or short value lists) become `Except`
errors / `Option` misses.  Python dicts become insertion-ordered
association lists with overwrite-on-duplicate semantics (`dictInsert`).
`nid` attributes are modelled as `Option Nat` (the site contract makes
them numeric), so Python's `str(...)`/`int(...)` round trips collapse to
`toString`.
-/

namespace GrabPackt

/-- LOGIN_URL constant from the source (`https://www.packtpub.com/`). -/
def LOGIN_URL : String := "https://www.packtpub.com/"

/-- Failure modes of the extraction code.  In the source both are raised
Python `IndexError`s; `markupMismatch` is the case where an expected XPath
locator matched nothing (indexing `[0]` into an empty match list), and
`indexError` is a positional miss inside a matched element
(`values()[2]`, `split('/')[1]`). -/
inductive Err
  | markupMismatch
  | indexError
deriving DecidableEq

/-- Python-dict insertion: overwriting an existing key keeps its position,
a new key is appended (insertion order preserved, like `d[k] = v`). -/
def dictInsert {α β : Type} [DecidableEq α] (k : α) (v : β)
    (d : List (α × β)) : List (α × β) :=
  if d.any (fun p => p.1 = k) then
    d.map (fun p => if p.1 = k then (k, v) else p)
  else
    d ++ [(k, v)]

/-- A direct child of the book-list element (`BOOK_LIST_XPATH` match):
its `nid` attribute (absent on trailing non-item markup), its `title`
attribute, and the hrefs of all nested anchors (`.//a/@href`). -/
structure BookElem where
  nid : Option Nat
  title : String
  hrefs : List String
deriving DecidableEq

/-- The configuration keys read by `configure()` that the workflow logic
consults (credentials are only forwarded into the login payload). -/
structure Config where
  download_enabled : Bool
  download_types : String
  links_only : Bool
  zip : Bool
  force_zip : Bool
deriving DecidableEq

/-- Embeds `(tree.xpath(FORM_BUILD_ID_XPATH)[0]).values()[2]` from
`login`: take the first matched element, then its third attribute value.
An empty match list raises (IndexError in the source, the spec's
MarkupMismatch); fewer than three attribute values also raises. -/
def extractFormToken (ms : List (List String)) : Except Err String :=
  match ms with
  | [] => .error .markupMismatch
  | e :: _ =>
    match e.get? 2 with
    | some v => .ok v
    | none => .error .indexError

/-- Embeds `login(config, session)`.  `loginGetStatus` is the status of
the initial `session.get(LOGIN_URL)`: the source never inspects it (the
response body is parsed for the form token whatever the status was).
`loginFormMatches` is the XPath result on that body; `loginPostStatus` is
the status of the login POST.  The return value is
`req.status_code == 200` for the POST. -/
def login (_loginGetStatus : Nat) (loginFormMatches : List (List String))
    (loginPostStatus : Nat) : Except Err Bool :=
  match extractFormToken loginFormMatches with
  | .error e => .error e
  | .ok _ => .ok (loginPostStatus == 200)

/-- Embeds the dict comprehension of `get_owned_book_ids`:
`{int(nid): title for child in children if child.get('nid')}`. -/
def get_owned_book_ids (children : List BookElem) : List (Nat × String) :=
  children.foldl
    (fun d b =>
      match b.nid with
      | some n => dictInsert n b.title d
      | none => d) []

/-- Single-separator split with Python `str.split(sep)` semantics
(auxiliary accumulator form): every separator occurrence cuts, empty
pieces are kept. -/
def pySplitAux (sep : Char) : List Char → List Char → List (List Char)
  | [], acc => [acc.reverse]
  | c :: cs, acc =>
    if c = sep then acc.reverse :: pySplitAux sep cs []
    else pySplitAux sep cs (c :: acc)

/-- Python `s.split(sep)` for a one-character separator. -/
def pySplit (sep : Char) (s : List Char) : List (List Char) :=
  pySplitAux sep s []

/-- Embeds the string manipulation of `get_book_id(contents)` once the
claim link's href has been extracted: `claim_path = a_href[1:]`,
`book_id = claim_path.split('/')[1]`, returning `(book_id, claim_path)`.
A missing index 1 (no slash in the stripped path) raises in the source,
hence `Option`. -/
def get_book_id (a_href : List Char) : Option (List Char × List Char) :=
  let claim_path := a_href.drop 1
  match (pySplit '/' claim_path).get? 1 with
  | some book_id => some (book_id, claim_path)
  | none => none

/-- Embeds the `valid_option_links` dict built inside `prepare_links`:
each requested option character maps to its download type and site path;
for `'c'` the path id is `int(book_id) + 1`.  Characters outside `pemc`
(the source first checks `option in list("pemc")`) yield nothing. -/
def valid_option_links (book_id : Nat) : Char → Option (String × String)
  | 'p' => some ("pdf", "/ebook_download/" ++ toString book_id ++ "/pdf")
  | 'e' => some ("epub", "/ebook_download/" ++ toString book_id ++ "/epub")
  | 'm' => some ("mobi", "/ebook_download/" ++ toString book_id ++ "/mobi")
  | 'c' => some ("code", "/code_download/" ++ toString (book_id + 1))
  | _ => none

/-- One iteration of the option loop in `prepare_links`: if the option is
valid and its link occurs among the hrefs present on the page, record
`links[dl_type] = LOGIN_URL + link[1:]`. -/
def prepare_links_step (book_id : Nat) (available_links : List String)
    (links : List (String × String)) (option : Char) : List (String × String) :=
  match valid_option_links book_id option with
  | some (dl_type, link) =>
    if link ∈ available_links then
      dictInsert dl_type (LOGIN_URL ++ link.drop 1) links
    else links
  | none => links

/-- Embeds `prepare_links(config, book_element)` given the book's numeric
id and the hrefs found under it (`book_element.xpath('.//a/@href')`). -/
def prepare_links (download_types : String) (book_id : Nat)
    (available_links : List String) : List (String × String) :=
  download_types.toList.foldl (prepare_links_step book_id available_links) []

/-- The deterministic download target
`DOWNLOAD_DIRECTORY + book_id + '/' + book_id + '.' + dl_type`.
`dir` stands for `DOWNLOAD_DIRECTORY`, whose value is machine-dependent
(derived from the script's own location), so it stays a parameter. -/
def target_filename (dir book_id dl_type : String) : String :=
  dir ++ book_id ++ "/" ++ book_id ++ "." ++ dl_type

/-- State threaded through `download`: the set of paths present on disk
(`fs`, membership only), the `files` dict built so far, and how many
network fetches (`session.get` on a deliverable link) were issued. -/
structure DLState where
  fs : List String
  files : List (String × String)
  requests : Nat
deriving DecidableEq

/-- One iteration of the loop in `download`: if the target filename does
not yet exist, fetch it (one request, the file now exists); in both cases
record `files[dl_type] = filename`. -/
def download_step (dir book_id : String) (st : DLState)
    (p : String × String) : DLState :=
  let filename := target_filename dir book_id p.1
  if filename ∈ st.fs then
    { st with files := dictInsert p.1 filename st.files }
  else
    { fs := filename :: st.fs
      files := dictInsert p.1 filename st.files
      requests := st.requests + 1 }

/-- Embeds `download(session, book_id, links)` over an explicit
filesystem state: returns the final filesystem, the `files` mapping, and
the number of network requests made. -/
def download (dir : String) (fs : List String) (book_id : String)
    (links : List (String × String)) : DLState :=
  links.foldl (download_step dir book_id) ⟨fs, [], 0⟩

/-- Embeds `create_zip(files, book_name)`: the archive path
`DOWNLOAD_DIRECTORY + book_name + '.zip'` and its entry list, each input
file stored under the arcname `book_name + '.' + dl_type`. -/
def create_zip (dir : String) (files : List (String × String))
    (book_name : String) : String × List (String × String) :=
  (dir ++ book_name ++ ".zip",
   files.map (fun p => (p.2, book_name ++ "." ++ p.1)))

/-- The archive gate in `main`:
`if config.zip:` then `if len(files) > 1 or config.force_zip:`. -/
def zip_condition (zip force_zip : Bool) (nfiles : Nat) : Bool :=
  zip && (decide (nfiles > 1) || force_zip)

/-- Workflow actions recorded while replaying `main`.  Each constructor
marks one step of the source's control flow actually executing: the two
login requests, the relocation GET, the owned-books GET, the claim GET,
the re-parse of the claim response body, and the per-book
link-preparation / download / archive work. -/
inductive Step
  | loginGet
  | loginPost
  | relocateGet
  | ownedGet
  | claimGet
  | parseClaimList
  | prepareLinksFor (id : Nat)
  | downloadFor (id : Nat)
  | zipFor (id : Nat)
deriving DecidableEq

/-- Embeds the per-book loop body of `main` over the children of the
book-list element parsed from the claim response: stop at the first child
whose `nid` attribute is absent (`if book_id == None: break`); otherwise
prepare links, and unless `links_only` download the files (threading the
filesystem) and archive them when the zip gate holds. -/
def processBooks (cfg : Config) (dir : String) :
    List String → List BookElem → List Step
  | _, [] => []
  | fs, b :: rest =>
    match b.nid with
    | none => []
    | some book_id =>
      let links := prepare_links cfg.download_types book_id b.hrefs
      if cfg.links_only then
        Step.prepareLinksFor book_id :: processBooks cfg dir fs rest
      else
        let st := download dir fs (toString book_id) links
        Step.prepareLinksFor book_id :: Step.downloadFor book_id ::
          ((if zip_condition cfg.zip cfg.force_zip st.files.length then
              [Step.zipFor book_id]
            else []) ++ processBooks cfg dir st.fs rest)

/-- Embeds the element-location part of `get_book_id(contents)`:
`offerHref` is `none` when the XPath chain
(`xpath(CLAIM_BOOK_XPATH)[0].getchildren()[0].values()[0]`) finds
nothing (IndexError in the source), otherwise the claim link's href,
which is then processed by `get_book_id`. -/
def get_book_id_page (offerHref : Option String) :
    Except Err (List Char × List Char) :=
  match offerHref with
  | none => .error .markupMismatch
  | some h =>
    match get_book_id h.toList with
    | some r => .ok r
    | none => .error .indexError

/-- One run's external inputs: configuration, response statuses, and the
parsed structure each scraped page yields.  `ownedMatch`/`claimMatch` are
`none` when `BOOK_LIST_XPATH` matches nothing on the respective page
(indexing `[0]` then raises in the source); `fs0` is the filesystem
content when the run starts. -/
structure Env where
  cfg : Config
  loginGetStatus : Nat
  loginFormMatches : List (List String)
  loginPostStatus : Nat
  grabStatus : Nat
  offerHref : Option String
  ownedMatch : Option (List BookElem)
  claimStatus : Nat
  claimMatch : Option (List BookElem)
  fs0 : List String
deriving DecidableEq

/-- Embeds the control flow of `main()` as the list of workflow steps it
executes against a given environment.  Mirrors the source: login, then
(only if authenticated) relocate, then (only if the offer page returned
200) extract the book id, fetch the owned list, claim, and — whenever
`download_enabled`, with no test of the claim's own success flag —
re-parse the claim response body and run the per-book loop. -/
def mainRun (dir : String) (env : Env) : List Step :=
  match login env.loginGetStatus env.loginFormMatches env.loginPostStatus with
  | .error _ => [Step.loginGet]
  | .ok is_authenticated =>
    let pre := [Step.loginGet, Step.loginPost]
    if is_authenticated then
      let page_available := env.grabStatus == 200
      let pre := pre ++ [Step.relocateGet]
      if page_available then
        match get_book_id_page env.offerHref with
        | .error _ => pre
        | .ok _ =>
          match env.ownedMatch with
          | none => pre ++ [Step.ownedGet]
          | some owned =>
            let _owned_book_ids := get_owned_book_ids owned
            let pre := pre ++ [Step.ownedGet, Step.claimGet]
            let _has_claimed := env.claimStatus == 200
            if env.cfg.download_enabled then
              match env.claimMatch with
              | none => pre
              | some children =>
                pre ++ Step.parseClaimList ::
                  processBooks env.cfg dir env.fs0 children
            else pre
      else pre
    else pre

/-- A concrete environment in which every HTTP step succeeds except the
claim GET (status 404), the configuration enables downloads in
links-only mode, and the claim response still parses to a one-book
list.  Used to exercise the post-claim control flow. -/
def envC1 : Env :=
  { cfg := { download_enabled := true, download_types := "p", links_only := true,
             zip := false, force_zip := false }
    loginGetStatus := 200
    loginFormMatches := [["a", "b", "tok"]]
    loginPostStatus := 200
    grabStatus := 200
    offerHref := some "/freelearning-claim/11111/22222"
    ownedMatch := some []
    claimStatus := 404
    claimMatch := some [⟨some 99, "Title", []⟩]
    fs0 := [] }

/-- A concrete environment whose owned-items page already lists the very
item (id 11111) that the offer page proposes to claim. -/
def envC10 : Env :=
  { cfg := { download_enabled := false, download_types := "", links_only := true,
             zip := false, force_zip := false }
    loginGetStatus := 200
    loginFormMatches := [["a", "b", "tok"]]
    loginPostStatus := 200
    grabStatus := 200
    offerHref := some "/freelearning-claim/11111/22222"
    ownedMatch := some [⟨some 11111, "T", []⟩]
    claimStatus := 200
    claimMatch := some [⟨some 11111, "T", []⟩]
    fs0 := [] }

/-- A concrete links-only configuration for exercising the per-book loop. -/
def cfgW : Config :=
  { download_enabled := true, download_types := "p", links_only := true,
    zip := false, force_zip := false }

/-- Every entry of `dictInsert k v d` is either the inserted pair or an
entry already in `d`. -/
theorem mem_dictInsert {α β : Type} [DecidableEq α] {k : α} {v : β}
    {d : List (α × β)} {e : α × β} (he : e ∈ dictInsert k v d) :
    e = (k, v) ∨ e ∈ d := by
  unfold dictInsert at he
  split at he
  · obtain ⟨p, hp, hpe⟩ := List.mem_map.mp he
    by_cases hk : p.1 = k
    · rw [if_pos hk] at hpe
      exact Or.inl hpe.symm
    · rw [if_neg hk] at hpe
      exact Or.inr (hpe ▸ hp)
  · rcases List.mem_append.mp he with h | h
    · exact Or.inr h
    · exact Or.inl (List.mem_singleton.mp h)

/-- The `files` dict update performed by one download-loop iteration is
the same in both branches (hit or miss on the filesystem). -/
theorem download_step_files (dir bid : String) (st : DLState)
    (p : String × String) :
    (download_step dir bid st p).files
      = dictInsert p.1 (target_filename dir bid p.1) st.files := by
  simp only [download_step]
  split <;> rfl

/-- The `files` mapping a download run produces depends only on the
`files` accumulator, never on the filesystem or request count. -/
theorem download_foldl_files_congr (dir bid : String) :
    ∀ (links : List (String × String)) (st st' : DLState),
      st.files = st'.files →
      (links.foldl (download_step dir bid) st).files
        = (links.foldl (download_step dir bid) st').files := by
  intro links
  induction links with
  | nil => intro st st' h; exact h
  | cons p rest ih =>
    intro st st' h
    simp only [List.foldl_cons]
    exact ih _ _ (by rw [download_step_files, download_step_files, h])

/-- The download loop never removes a file from the filesystem. -/
theorem download_foldl_fs_mono (dir bid : String) :
    ∀ (links : List (String × String)) (st : DLState) (x : String),
      x ∈ st.fs → x ∈ (links.foldl (download_step dir bid) st).fs := by
  intro links
  induction links with
  | nil => intro st x h; exact h
  | cons p rest ih =>
    intro st x h
    simp only [List.foldl_cons]
    apply ih
    simp only [download_step]
    split
    · exact h
    · exact List.mem_cons_of_mem _ h

/-- After the download loop runs, the target path of every processed link
exists on the filesystem. -/
theorem download_foldl_target_mem (dir bid : String) :
    ∀ (links : List (String × String)) (st : DLState) (p : String × String),
      p ∈ links →
      target_filename dir bid p.1 ∈ (links.foldl (download_step dir bid) st).fs := by
  intro links
  induction links with
  | nil => intro st p h; cases h
  | cons q rest ih =>
    intro st p h
    simp only [List.foldl_cons]
    rcases List.mem_cons.mp h with h | h
    · subst h
      apply download_foldl_fs_mono
      by_cases hc : target_filename dir bid p.1 ∈ st.fs
      · simp only [download_step, if_pos hc]
        exact hc
      · simp only [download_step, if_neg hc]
        exact List.mem_cons_self _ _
    · exact ih _ _ h

/-- When every target path already exists, the download loop issues no
request and leaves the filesystem untouched. -/
theorem download_foldl_all_present (dir bid : String) :
    ∀ (links : List (String × String)) (st : DLState),
      (∀ p ∈ links, target_filename dir bid p.1 ∈ st.fs) →
      (links.foldl (download_step dir bid) st).requests = st.requests
        ∧ (links.foldl (download_step dir bid) st).fs = st.fs := by
  intro links
  induction links with
  | nil => intro st _; exact ⟨rfl, rfl⟩
  | cons q rest ih =>
    intro st hall
    have hq : target_filename dir bid q.1 ∈ st.fs :=
      hall q (List.mem_cons_self _ _)
    simp only [List.foldl_cons]
    have hstep : download_step dir bid st q
        = { st with files := dictInsert q.1 (target_filename dir bid q.1) st.files } := by
      simp only [download_step, if_pos hq]
    rw [hstep]
    exact ih _ (fun p hp => hall p (List.mem_cons_of_mem _ hp))

/-- C3: the download step is idempotent.  For each requested kind whose
deterministic target path `{dir}{book_id}/{book_id}.{kind}` already
exists, no network fetch occurs (first conjunct: if every target exists,
zero requests are issued); and a second `download` call on the filesystem
the first call left behind performs zero network requests and returns the
same kind-to-localPath mapping. -/
theorem download_idempotent (dir : String) (fs : List String)
    (book_id : String) (links : List (String × String)) :
    ((∀ p ∈ links, target_filename dir book_id p.1 ∈ fs) →
        (download dir fs book_id links).requests = 0)
      ∧ (download dir (download dir fs book_id links).fs book_id links).requests = 0
      ∧ (download dir (download dir fs book_id links).fs book_id links).files
          = (download dir fs book_id links).files := by
  unfold download
  refine ⟨?_, ?_, ?_⟩
  · intro hall
    exact (download_foldl_all_present dir book_id links ⟨fs, [], 0⟩ hall).1
  · have hmem : ∀ p ∈ links,
        target_filename dir book_id p.1
          ∈ (links.foldl (download_step dir book_id) ⟨fs, [], 0⟩).fs :=
      fun p hp => download_foldl_target_mem dir book_id links ⟨fs, [], 0⟩ p hp
    exact (download_foldl_all_present dir book_id links
      ⟨(links.foldl (download_step dir book_id) ⟨fs, [], 0⟩).fs, [], 0⟩ hmem).1
  · exact download_foldl_files_congr dir book_id links _ _ rfl

/-- Witness for `download_idempotent` at a concrete populated staging
directory: the single requested pdf already exists, so no request is
made. -/
theorem download_idempotent_witness :
    (download "tmp/" ["tmp/1/1.pdf"] "1" [("pdf", "u")]).requests = 0 :=
  (download_idempotent "tmp/" ["tmp/1/1.pdf"] "1" [("pdf", "u")]).1 (by decide)

/-- Soundness of the option loop in `prepare_links`: every entry of the
accumulated dict either was already in the accumulator or corresponds to
a requested option whose site link is present among the page's hrefs. -/
theorem prepare_links_fold_sound (book_id : Nat) (avail : List String) :
    ∀ (opts : List Char) (acc : List (String × String)) (e : String × String),
      e ∈ opts.foldl (prepare_links_step book_id avail) acc →
      e ∈ acc ∨ ∃ c l, c ∈ opts ∧ valid_option_links book_id c = some (e.1, l)
        ∧ l ∈ avail ∧ e.2 = LOGIN_URL ++ l.drop 1 := by
  intro opts
  induction opts with
  | nil => intro acc e he; exact Or.inl he
  | cons c rest ih =>
    intro acc e he
    simp only [List.foldl_cons] at he
    rcases ih _ e he with h | ⟨c', l, hc', hv, hl, hu⟩
    · cases hv : valid_option_links book_id c with
      | none =>
        rw [prepare_links_step, hv] at h
        exact Or.inl h
      | some dl =>
        obtain ⟨dl_type, link⟩ := dl
        rw [prepare_links_step, hv] at h
        dsimp only at h
        by_cases hin : link ∈ avail
        · rw [if_pos hin] at h
          rcases mem_dictInsert h with he' | he'
          · subst he'
            exact Or.inr ⟨c, link, List.mem_cons_self _ _, hv, hin, rfl⟩
          · exact Or.inl he'
        · rw [if_neg hin] at h
          exact Or.inl h
    · exact Or.inr ⟨c', l, List.mem_cons_of_mem _ hc', hv, hl, hu⟩

/-- C4: deliverable-link resolution intersects requested kinds with the
kinds present on the item's page.  First conjunct: a kind appears in the
result only if some requested option maps to it and its link is present
among the page's hrefs (and the stored URL is the site prefix glued to
the link).  Second conjunct: requesting `"pe"` against a page offering
pdf and mobi yields exactly the pdf entry. -/
theorem prepare_links_kind_intersection :
    (∀ (types : String) (book_id : Nat) (avail : List String)
        (e : String × String),
        e ∈ prepare_links types book_id avail →
        ∃ c l, c ∈ types.toList ∧ valid_option_links book_id c = some (e.1, l)
          ∧ l ∈ avail ∧ e.2 = LOGIN_URL ++ l.drop 1)
      ∧ prepare_links "pe" 12345
          ["/ebook_download/12345/pdf", "/ebook_download/12345/mobi"]
          = [("pdf", "https://www.packtpub.com/ebook_download/12345/pdf")] := by
  constructor
  · intro types book_id avail e he
    rcases prepare_links_fold_sound book_id avail types.toList [] e
        (by simpa [prepare_links] using he) with h | h
    · cases h
    · exact h
  · decide

/-- Witness for `prepare_links_kind_intersection` at a concrete request:
the pdf entry produced for `types = "p"` is both requested and present. -/
theorem prepare_links_kind_intersection_witness :
    ∃ c l, c ∈ "p".toList
      ∧ valid_option_links 1 c
          = some ((("pdf", "https://www.packtpub.com/ebook_download/1/pdf")
              : String × String).1, l)
      ∧ l ∈ ["/ebook_download/1/pdf"]
      ∧ (("pdf", "https://www.packtpub.com/ebook_download/1/pdf")
          : String × String).2 = LOGIN_URL ++ l.drop 1 :=
  prepare_links_kind_intersection.1 "p" 1 ["/ebook_download/1/pdf"]
    ("pdf", "https://www.packtpub.com/ebook_download/1/pdf") (by decide)

/-- C5: the `code` deliverable's target id is the item id plus one, in
exact integer arithmetic, for every item id; at item id 30001 the code
download path targets 30002. -/
theorem code_target_id_plus_one :
    (∀ book_id : Nat,
        valid_option_links book_id 'c'
          = some ("code", "/code_download/" ++ toString (book_id + 1)))
      ∧ valid_option_links 30001 'c' = some ("code", "/code_download/30002") :=
  ⟨fun _ => rfl, by decide⟩

/-- C6 counterexample: with zipping disabled in the configuration
(`zip = false`) the per-book loop downloads two files for a book offering
pdf and epub — yet produces no archive, even with `force_zip = true`;
so "two or more downloaded files always produce exactly one archive
regardless of force_zip" fails on the code, which additionally requires
`config.zip`. -/
theorem packaging_threshold_counterexample :
    (download "tmp/" [] "7"
        (prepare_links "pe" 7
          ["/ebook_download/7/pdf", "/ebook_download/7/epub"])).files.length = 2
      ∧ Step.zipFor 7 ∉ processBooks
          { download_enabled := true, download_types := "pe", links_only := false,
            zip := false, force_zip := true } "tmp/" []
          [⟨some 7, "T", ["/ebook_download/7/pdf", "/ebook_download/7/epub"]⟩] := by
  decide

/-- C6 amended: when zipping is enabled in the configuration
(`config.zip = true`), one downloaded file with `force_zip = false`
produces no archive and two or more files pass the archive gate whatever
`force_zip` is; the archive stores every input file under the entry name
`{itemTitle}.{kind}`.  (With `config.zip = false` no archive is ever
produced — see the counterexample.) -/
theorem packaging_threshold_amended :
    (∀ z : Bool, zip_condition z false 1 = false)
      ∧ (∀ (f : Bool) (n : Nat), 2 ≤ n → zip_condition true f n = true)
      ∧ ∀ (dir : String) (files : List (String × String)) (name : String),
          (create_zip dir files name).2
            = files.map (fun p => (p.2, name ++ "." ++ p.1)) := by
  refine ⟨fun z => by cases z <;> rfl, ?_, fun _ _ _ => rfl⟩
  intro f n hn
  have h1 : 1 < n := hn
  simp [zip_condition, h1]

/-- Witness for `packaging_threshold_amended`: two files with zipping
enabled pass the archive gate. -/
theorem packaging_threshold_amended_witness :
    zip_condition true true 2 = true :=
  packaging_threshold_amended.2.1 true 2 (by decide)

/-- C7: the per-book loop over the post-claim book list stops at the
first child lacking an `nid` attribute: whatever follows that child —
including later children that do carry ids — contributes nothing, so the
processed books are exactly the leading all-id prefix. -/
theorem owned_enumeration_stops (cfg : Config) (dir : String)
    (xs : List BookElem) (b : BookElem) (ys : List BookElem)
    (hx : ∀ x ∈ xs, x.nid.isSome) (hb : b.nid = none) :
    ∀ fs : List String,
      processBooks cfg dir fs (xs ++ b :: ys) = processBooks cfg dir fs xs := by
  induction xs with
  | nil =>
    intro fs
    simp [processBooks, hb]
  | cons x rest ih =>
    intro fs
    obtain ⟨n, hn⟩ := Option.isSome_iff_exists.mp (hx x (List.mem_cons_self _ _))
    have ih' := ih (fun y hy => hx y (List.mem_cons_of_mem _ hy))
    simp only [List.cons_append, processBooks, hn]
    by_cases hlo : cfg.links_only
    · simp [hlo, ih']
    · simp [hlo, ih']

/-- Witness for `owned_enumeration_stops`: a book with id 1, then a child
without id, then a book with id 2 — the loop output equals that for the
id-1 book alone. -/
theorem owned_enumeration_stops_witness :
    processBooks cfgW "tmp/" []
        ([⟨some 1, "a", []⟩] ++ (⟨none, "x", []⟩ : BookElem) :: [⟨some 2, "b", []⟩])
      = processBooks cfgW "tmp/" [] [⟨some 1, "a", []⟩] :=
  owned_enumeration_stops cfgW "tmp/" [⟨some 1, "a", []⟩] ⟨none, "x", []⟩
    [⟨some 2, "b", []⟩] (by decide) rfl []

/-- C8: token extraction.  When the login form is present — the locator
matches a unique element — `extractFormToken` returns exactly that
element's third attribute value; when no element matches, it fails with
`markupMismatch` and in particular never returns any (default) value. -/
theorem extractFormToken_contract :
    (∀ (e : List String) (v : String), e.get? 2 = some v →
        extractFormToken [e] = .ok v)
      ∧ extractFormToken [] = .error .markupMismatch
      ∧ ∀ v : String, extractFormToken [] ≠ .ok v := by
  refine ⟨?_, rfl, ?_⟩
  · intro e v hv
    simp only [extractFormToken]
    rw [hv]
  · intro v h
    simp [extractFormToken] at h

/-- Witness for `extractFormToken_contract`: a uniquely matched element
whose attribute values are `["a", "b", "tok"]` yields the token
`"tok"`. -/
theorem extractFormToken_contract_witness :
    extractFormToken [["a", "b", "tok"]] = .ok "tok" :=
  extractFormToken_contract.1 ["a", "b", "tok"] "tok" rfl

/-- Splitting a separator-free chunk yields a single piece appended to
the reversed accumulator. -/
theorem pySplitAux_no_sep (sep : Char) :
    ∀ (a acc : List Char), sep ∉ a →
      pySplitAux sep a acc = [acc.reverse ++ a] := by
  intro a
  induction a with
  | nil => intro acc _; simp [pySplitAux]
  | cons c cs ih =>
    intro acc h
    have hc : c ≠ sep := fun hc => h (hc ▸ List.mem_cons_self _ _)
    simp only [pySplitAux, if_neg hc]
    rw [ih (c :: acc) (fun hm => h (List.mem_cons_of_mem _ hm))]
    simp

/-- Splitting past a separator-free chunk followed by a separator
produces that chunk and recurses on the remainder. -/
theorem pySplitAux_append (sep : Char) :
    ∀ (a rest acc : List Char), sep ∉ a →
      pySplitAux sep (a ++ sep :: rest) acc
        = (acc.reverse ++ a) :: pySplit sep rest := by
  intro a
  induction a with
  | nil =>
    intro rest acc _
    simp [pySplitAux, pySplit]
  | cons c cs ih =>
    intro rest acc h
    have hc : c ≠ sep := fun hc => h (hc ▸ List.mem_cons_self _ _)
    simp only [List.cons_append, pySplitAux, if_neg hc, List.append_eq]
    rw [ih rest (c :: acc) (fun hm => h (List.mem_cons_of_mem _ hm))]
    simp

/-- C9: claim-path extraction.  For an href that is a leading path
separator followed by three slash-delimited segments (the first two
slash-free), `get_book_id` strips the leading separator, returns the full
stripped string as the claim path and the second slash-delimited segment
as the item id. -/
theorem get_book_id_contract (a b c : List Char)
    (ha : '/' ∉ a) (hb : '/' ∉ b) :
    get_book_id ('/' :: (a ++ '/' :: (b ++ '/' :: c)))
      = some (b, a ++ '/' :: (b ++ '/' :: c)) := by
  have h2 : pySplit '/' (b ++ '/' :: c) = b :: pySplit '/' c := by
    rw [pySplit, pySplitAux_append '/' b c [] hb]
    simp
  have h1 : pySplit '/' (a ++ '/' :: (b ++ '/' :: c))
      = a :: (b :: pySplit '/' c) := by
    rw [pySplit, pySplitAux_append '/' a (b ++ '/' :: c) [] ha, h2]
    simp
  simp [get_book_id, h1]

/-- Witness for `get_book_id_contract`: the href `"/claim/12345/67890"`
yields item id `"12345"` and claim path `"claim/12345/67890"`. -/
theorem get_book_id_contract_witness :
    get_book_id ('/' :: ("claim".toList ++ '/' :: ("12345".toList ++ '/' :: "67890".toList)))
      = some ("12345".toList,
          "claim".toList ++ '/' :: ("12345".toList ++ '/' :: "67890".toList)) :=
  get_book_id_contract "claim".toList "12345".toList "67890".toList
    (by decide) (by decide)

/-- C2 counterexample: the login-page GET returns 500, yet with the form
token present in the (error) body and a 200 on the POST, `login` reports
success — a non-200 on the GET does not propagate as a login failure. -/
theorem login_get_status_counterexample :
    login 500 [["a", "b", "tok"]] 200 = .ok true ∧ (500 : Nat) ≠ 200 :=
  ⟨rfl, by decide⟩

/-- C2 amended: whenever the form-token extraction succeeds, `login`
returns success exactly when the login POST receives HTTP 200 — with no
inspection of the response body and no inspection of the login-page
GET's status (the GET status argument is universally quantified and
absent from the result).  A non-200 GET surfaces only indirectly, when
the error body lacks the form token. -/
theorem login_success_iff_post_200 (g p : Nat) (ms : List (List String))
    (tok : String) (h : extractFormToken ms = .ok tok) :
    login g ms p = .ok (p == 200) := by
  simp [login, h]

/-- Witness for `login_success_iff_post_200` at a concrete page: GET
status 500, token present, POST status 200. -/
theorem login_success_iff_post_200_witness :
    login 500 [["a", "b", "tok"]] 200 = .ok ((200 : Nat) == 200) :=
  login_success_iff_post_200 500 200 [["a", "b", "tok"]] "tok" rfl

/-- C1 counterexample: in `envC1` the claim GET returns 404
(`ClaimFailed`), yet the run does not abort — the post-claim loop still
resolves deliverable links for the book found in the claim response
body. -/
theorem claim_failure_no_abort_counterexample :
    envC1.claimStatus ≠ 200 ∧ Step.prepareLinksFor 99 ∈ mainRun "tmp/" envC1 := by
  decide

/-- C1 amended: `main` computes the claim step's success flag but never
consults it: the steps a run executes are identical whatever status the
claim request returns, so a failed claim aborts nothing — the downstream
steps (owned-list re-parse, link resolution, download, packaging) run
exactly as in the 200 case whenever `download_enabled` is set. -/
theorem claim_status_never_consulted (dir : String) (env : Env) (s : Nat) :
    mainRun dir { env with claimStatus := s }
      = mainRun dir { env with claimStatus := 200 } :=
  rfl

/-- C10: the claim request is unconditional on prior ownership.  First
conjunct: the run's steps are identical whatever owned-items mapping the
earlier fetch returned (the mapping is computed and never consulted).
The remaining conjuncts instantiate this: in `envC10` the offer page
proposes item `"11111"`, that id is already a key of the owned mapping
fetched in the same run, and the claim GET still executes. -/
theorem claim_ignores_owned_mapping :
    (∀ (dir : String) (env : Env) (l1 l2 : List BookElem),
        mainRun dir { env with ownedMatch := some l1 }
          = mainRun dir { env with ownedMatch := some l2 })
      ∧ Step.claimGet ∈ mainRun "tmp/" envC10
      ∧ (get_owned_book_ids [⟨some 11111, "T", []⟩]).any
          (fun q => q.1 == 11111) = true
      ∧ (get_book_id_page envC10.offerHref).toOption.map
          (fun r => String.mk r.1) = some "11111" :=
  ⟨fun _ _ _ _ => rfl, by decide, by decide, by decide⟩

end GrabPackt
